import Mathlib

/-!
Verification development for the order-book core and execution-database layer of
an event-driven trading platform.

The order book (`OrderBook`, `L1`/`L2`/`L3` specializations, `OrderBookData`
inbound types) is embedded from `model/orderbook/book.pyx`.  The `Ladder` /
`Level` / `Order` containers it is built on are declared but not implemented in
the provided sources, so they are modelled from the specification (sections 3
and 4.1): one side of a book is a price-sorted list of levels, each level an
insertion-ordered list of orders; see the doc comments on each modelled
definition.  The Redis-backed and bypass execution databases are embedded from
`redis/execution.pyx` and `execution/database.pyx`.

Numeric conventions: prices, volumes and sizes are rationals (the source works
with floats over fixed-point quantized values; the spec's invariant I2 keeps
every stored value quantized, and all claims are about quantized data).  The
L2 "formatted price" order identifier is modelled by the constructor
`OrderId.fmtPrice` carrying the price and the precision, which is a faithful
injective encoding of the f-string `f"{price:.Pf}"` on quantized prices.
-/

namespace Nautilus

/-- Order side enumeration (`order_side.pyx`). -/
inductive OrderSide where
  | BUY
  | SELL
deriving DecidableEq, Repr

/-- Aggressor side enumeration (`aggressor_side.pyx`). -/
inductive AggressorSide where
  | UNKNOWN
  | BUY
  | SELL
deriving DecidableEq, Repr

/-- Order identifiers.  `raw` is an arbitrary string id (the default uuid in
the source); `fmtPrice p P` models the L2 trick of overwriting the id with the
price formatted to the book's price precision (`f"{order.price:.Pf}"`);
`sideName` models the L1 trick of overwriting the id with the side name. -/
inductive OrderId where
  | raw : String → OrderId
  | fmtPrice : ℚ → Nat → OrderId
  | sideName : OrderSide → OrderId
deriving DecidableEq, Repr

/-- A resting order (`model/orderbook/order.pyx`, modelled from the spec
section 3): id, price, volume, side. -/
structure Order where
  id : OrderId
  price : ℚ
  volume : ℚ
  side : OrderSide
deriving DecidableEq, Repr

/-- The source constructor `Order(price, volume, side)` with a defaulted id. -/
def Order.mk' (price volume : ℚ) (side : OrderSide) : Order :=
  { id := OrderId.raw "", price := price, volume := volume, side := side }

/-- All resting orders at one price (`model/orderbook/level.pyx`, modelled from
the spec section 3): a price and the insertion-ordered orders at that price. -/
structure Level where
  price : ℚ
  orders : List Order
deriving DecidableEq, Repr

/-- Level volume is the sum of its orders' volumes (spec section 3). -/
def Level.volume (l : Level) : ℚ :=
  (l.orders.map (fun o => o.volume)).sum

/-- Whether some order in the level carries the given id. -/
def Level.hasId (l : Level) (oid : OrderId) : Bool :=
  l.orders.any (fun o => decide (o.id = oid))

/-- One side of a book (`model/orderbook/ladder.pyx`, modelled from the spec
sections 3 and 4.1): price-sorted levels, descending when `reverse` is true
(bids) and ascending otherwise (asks). -/
structure Ladder where
  reverse : Bool
  price_precision : Nat
  size_precision : Nat
  levels : List Level
deriving DecidableEq, Repr

/-- An empty ladder, as built by the `Ladder(reverse=..., ...)` constructor. -/
def Ladder.empty (reverse : Bool) (pp sp : Nat) : Ladder :=
  { reverse := reverse, price_precision := pp, size_precision := sp, levels := [] }

/-- Modelled from the spec (section 4.1): price-keyed insertion.  An order at an
existing price is appended to that level (price-time priority); otherwise a new
level is created at the sorted position given by `reverse`. -/
def Ladder.insertOrder (r : Bool) (o : Order) : List Level → List Level
  | [] => [⟨o.price, [o]⟩]
  | l :: ls =>
    if o.price = l.price then ⟨l.price, l.orders ++ [o]⟩ :: ls
    else if (if r then l.price < o.price else o.price < l.price) then
      ⟨o.price, [o]⟩ :: l :: ls
    else
      l :: Ladder.insertOrder r o ls

/-- `add(order)` on a ladder (spec section 4.1). -/
def Ladder.add (ld : Ladder) (o : Order) : Ladder :=
  { ld with levels := Ladder.insertOrder ld.reverse o ld.levels }

/-- Remove the first order carrying the given id from a list of orders. -/
def eraseFirstId (oid : OrderId) : List Order → List Order
  | [] => []
  | o :: os => if o.id = oid then os else o :: eraseFirstId oid os

/-- Remove the first order carrying the given id from the levels; a level left
empty is dropped (book entries live from ADD until matched or DELETE,
spec section 3). -/
def removeFirstById (oid : OrderId) : List Level → List Level
  | [] => []
  | l :: ls =>
    if l.hasId oid then
      match eraseFirstId oid l.orders with
      | [] => ls
      | os => ⟨l.price, os⟩ :: ls
    else
      l :: removeFirstById oid ls

/-- Modelled from the spec (section 4.1): `delete(order)` locates the resting
order by id and removes it. -/
def Ladder.delete (ld : Ladder) (o : Order) : Ladder :=
  { ld with levels := removeFirstById o.id ld.levels }

/-- The price of the level currently holding the order with the given id. -/
def findLevelPriceOfId (oid : OrderId) : List Level → Option ℚ
  | [] => none
  | l :: ls => if l.hasId oid then some l.price else findLevelPriceOfId oid ls

/-- Replace the first order carrying the given id, in place. -/
def replaceFirstId (oid : OrderId) (o : Order) : List Order → List Order
  | [] => []
  | x :: xs => if x.id = oid then o :: xs else x :: replaceFirstId oid o xs

/-- Replace the order with the given id inside the level that holds it. -/
def replaceInLevels (oid : OrderId) (o : Order) : List Level → List Level
  | [] => []
  | l :: ls =>
    if l.hasId oid then ⟨l.price, replaceFirstId oid o l.orders⟩ :: ls
    else l :: replaceInLevels oid o ls

/-- Modelled from the spec (section 4.1): `update(order)` locates the resting
order by id and replaces it in place; when the price moved, the order is
deleted and re-inserted at its new price; when the id is absent the order is
inserted (the source comment in `apply_snapshot` records that `update` and
`add` agree on a cleared book, and section 4.1 notes that updates arriving
through the L1/L2 specializations are pre-processed rather than failed). -/
def Ladder.update (ld : Ladder) (o : Order) : Ladder :=
  match findLevelPriceOfId o.id ld.levels with
  | none => ld.add o
  | some p =>
    if o.price = p then { ld with levels := replaceInLevels o.id o ld.levels }
    else (ld.delete o).add o

/-- `top()` returns the first (best) level, `None` when the side is empty. -/
def Ladder.top (ld : Ladder) : Option Level :=
  ld.levels.head?

/-- `prices()` returns the prices of the ladder's levels. -/
def Ladder.prices (ld : Ladder) : List ℚ :=
  ld.levels.map (fun l => l.price)

/-- Order book level enumeration (`orderbook_level.pyx`). -/
inductive OrderBookLevel where
  | L1
  | L2
  | L3
deriving DecidableEq, Repr

/-- Order book delta type enumeration (`orderbook_delta.pyx`). -/
inductive OrderBookDeltaType where
  | ADD
  | UPDATE
  | DELETE
deriving DecidableEq, Repr

/-- The `OrderBook` state (`book.pyx` constructor): level tag, precisions, a
descending bid ladder, an ascending ask ladder and the last update timestamp.
`top_bid` and `top_ask` are the `L1OrderBook` cached top orders (`_top_bid`,
`_top_ask`), initialized to `None` and unused by the other variants. -/
structure OrderBook where
  level : OrderBookLevel
  price_precision : Nat
  size_precision : Nat
  bids : Ladder
  asks : Ladder
  last_update_timestamp_ns : Int
  top_bid : Option Order := none
  top_ask : Option Order := none
deriving DecidableEq, Repr

/-- A freshly constructed book of the given level and precisions
(`OrderBook.__init__`): empty reversed bid ladder, empty ask ladder,
timestamp 0. -/
def OrderBook.mkBook (lvl : OrderBookLevel) (pp sp : Nat) : OrderBook :=
  { level := lvl
    price_precision := pp
    size_precision := sp
    bids := Ladder.empty true pp sp
    asks := Ladder.empty false pp sp
    last_update_timestamp_ns := 0 }

/-- `OrderBook._add`: dispatch the order to the ladder for its side. -/
def OrderBook.addBase (b : OrderBook) (o : Order) : OrderBook :=
  match o.side with
  | OrderSide.BUY => { b with bids := b.bids.add o }
  | OrderSide.SELL => { b with asks := b.asks.add o }

/-- `OrderBook._update`: dispatch the order to the ladder for its side. -/
def OrderBook.updateBase (b : OrderBook) (o : Order) : OrderBook :=
  match o.side with
  | OrderSide.BUY => { b with bids := b.bids.update o }
  | OrderSide.SELL => { b with asks := b.asks.update o }

/-- `OrderBook._delete`: dispatch the order to the ladder for its side. -/
def OrderBook.deleteBase (b : OrderBook) (o : Order) : OrderBook :=
  match o.side with
  | OrderSide.BUY => { b with bids := b.bids.delete o }
  | OrderSide.SELL => { b with asks := b.asks.delete o }

/-- `clear_bids`: replace the bid side with a fresh reversed ladder. -/
def OrderBook.clear_bids (b : OrderBook) : OrderBook :=
  { b with bids := Ladder.empty true b.price_precision b.size_precision }

/-- `clear_asks`: replace the ask side with a fresh ladder. -/
def OrderBook.clear_asks (b : OrderBook) : OrderBook :=
  { b with asks := Ladder.empty false b.price_precision b.size_precision }

/-- `clear`: clear both sides. -/
def OrderBook.clear (b : OrderBook) : OrderBook :=
  b.clear_bids.clear_asks

/-- `best_bid_level`: the top level of the bid ladder. -/
def OrderBook.best_bid_level (b : OrderBook) : Option Level :=
  b.bids.top

/-- `best_ask_level`: the top level of the ask ladder. -/
def OrderBook.best_ask_level (b : OrderBook) : Option Level :=
  b.asks.top

/-- `best_bid_price`: the top bid level's price, `None` when there are no
bids. -/
def OrderBook.best_bid_price (b : OrderBook) : Option ℚ :=
  match b.bids.top with
  | some l => some l.price
  | none => none

/-- `best_ask_price`: the top ask level's price, `None` when there are no
asks. -/
def OrderBook.best_ask_price (b : OrderBook) : Option ℚ :=
  match b.asks.top with
  | some l => some l.price
  | none => none

/-- `best_bid_qty`: the top bid level's volume, `None` when there are no
bids. -/
def OrderBook.best_bid_qty (b : OrderBook) : Option ℚ :=
  match b.bids.top with
  | some l => some l.volume
  | none => none

/-- `best_ask_qty`: the top ask level's volume, `None` when there are no
asks. -/
def OrderBook.best_ask_qty (b : OrderBook) : Option ℚ :=
  match b.asks.top with
  | some l => some l.volume
  | none => none

/-- `spread`: top ask price minus top bid price, `None` when either side is
empty. -/
def OrderBook.spread (b : OrderBook) : Option ℚ :=
  match b.bids.top, b.asks.top with
  | some tb, some ta => some (ta.price - tb.price)
  | _, _ => none

/-- `midpoint`: the average of the top prices, `None` when either side is
empty. -/
def OrderBook.midpoint (b : OrderBook) : Option ℚ :=
  match b.bids.top, b.asks.top with
  | some tb, some ta => some ((ta.price + tb.price) / 2)
  | _, _ => none

/-- `L2OrderBook._process_order`: replace the order id with the price formatted
to the book's price precision, so one order stands for the whole level. -/
def L2.processOrder (pp : Nat) (o : Order) : Order :=
  { o with id := OrderId.fmtPrice o.price pp }

/-- `L2OrderBook.add`: process the order then insert it. -/
def L2.add (b : OrderBook) (o : Order) : OrderBook :=
  b.addBase (L2.processOrder b.price_precision o)

/-- `L2OrderBook._remove_if_exists`: an update means a whole-level update, so a
level already present at the order's price is deleted first. -/
def L2.removeIfExists (b : OrderBook) (o : Order) : OrderBook :=
  if o.side = OrderSide.BUY ∧ o.price ∈ b.bids.prices then b.deleteBase o
  else if o.side = OrderSide.SELL ∧ o.price ∈ b.asks.prices then b.deleteBase o
  else b

/-- `L2OrderBook.update`: process the order, remove any existing level at the
target price, then update. -/
def L2.update (b : OrderBook) (o : Order) : OrderBook :=
  let o' := L2.processOrder b.price_precision o
  (L2.removeIfExists b o').updateBase o'

/-- `L2OrderBook.delete`: process the order then delete it. -/
def L2.delete (b : OrderBook) (o : Order) : OrderBook :=
  b.deleteBase (L2.processOrder b.price_precision o)

/-- `L1OrderBook._process_order`: replace the order id with the side name, so
each side holds at most one order. -/
def L1.processOrder (o : Order) : Order :=
  { o with id := OrderId.sideName o.side }

/-- The crossed-feed guard at the head of `L1OrderBook.update` (source lines
785-796): inserting a BUY at or through the best ask clears the asks, and
symmetrically a SELL at or through the best bid clears the bids. -/
def L1.crossCheck (b : OrderBook) (o : Order) : OrderBook :=
  if o.side = OrderSide.BUY then
    match b.best_ask_price with
    | some ap => if ap ≤ o.price then b.clear_asks else b
    | none => b
  else
    match b.best_bid_price with
    | some bp => if o.price ≤ bp then b.clear_bids else b
    | none => b

/-- `L1OrderBook.update`: run the crossed-feed guard, then update with the
processed (side-named) order. -/
def L1.update (b : OrderBook) (o : Order) : OrderBook :=
  (L1.crossCheck b o).updateBase (L1.processOrder o)

/-- `L1OrderBook.delete`: delete the processed (side-named) order. -/
def L1.delete (b : OrderBook) (o : Order) : OrderBook :=
  b.deleteBase (L1.processOrder o)

/-- Resolve the `_top_bid_level` / `_top_ask_level` alias of `L1OrderBook`:
the cached level object is the ladder's (single) top level, so assigning its
price and mutating the cached order rewrites the head level in place. -/
def setTopLevelAlias (price : ℚ) (oid : OrderId) (o' : Order) : List Level → List Level
  | [] => []
  | l :: ls => ⟨price, replaceFirstId oid o' l.orders⟩ :: ls

/-- `L1OrderBook._update_bid`: on the first update, add a processed BUY order
and cache it (with its level); afterwards assign the cached level's price and
mutate the cached order's price and volume in place. -/
def L1.updateBid (b : OrderBook) (price size : ℚ) : OrderBook :=
  match b.top_bid with
  | none =>
    let o : Order := { id := OrderId.sideName OrderSide.BUY, price := price
                       volume := size, side := OrderSide.BUY }
    { b with bids := b.bids.add o, top_bid := some o }
  | some tb =>
    let tb' : Order := { tb with price := price, volume := size }
    { b with bids := { b.bids with levels := setTopLevelAlias price tb.id tb' b.bids.levels }
             top_bid := some tb' }

/-- `L1OrderBook._update_ask`: symmetric to `L1.updateBid`. -/
def L1.updateAsk (b : OrderBook) (price size : ℚ) : OrderBook :=
  match b.top_ask with
  | none =>
    let o : Order := { id := OrderId.sideName OrderSide.SELL, price := price
                       volume := size, side := OrderSide.SELL }
    { b with asks := b.asks.add o, top_ask := some o }
  | some ta =>
    let ta' : Order := { ta with price := price, volume := size }
    { b with asks := { b.asks with levels := setTopLevelAlias price ta.id ta' b.asks.levels }
             top_ask := some ta' }

/-- A quote tick (`model/tick.pyx` interface): top bid/ask prices and sizes. -/
structure QuoteTick where
  bid : ℚ
  ask : ℚ
  bid_size : ℚ
  ask_size : ℚ
deriving DecidableEq, Repr

/-- A trade tick (`model/tick.pyx` interface): traded price, size and the
aggressor side. -/
structure TradeTick where
  price : ℚ
  size : ℚ
  aggressor_side : AggressorSide
deriving DecidableEq, Repr

/-- A tick is a quote tick or a trade tick. -/
inductive Tick where
  | quote : QuoteTick → Tick
  | trade : TradeTick → Tick
deriving DecidableEq, Repr

/-- `L1OrderBook._update_quote_tick`: update the bid then the ask. -/
def L1.updateQuoteTick (b : OrderBook) (q : QuoteTick) : OrderBook :=
  L1.updateAsk (L1.updateBid b q.bid q.bid_size) q.ask q.ask_size

/-- `L1OrderBook._update_trade_tick` (source lines 818-828).  A SELL aggressor
updates the bid side and a BUY aggressor updates the ask side.  The two lines
guarded by the crossed-book test in each branch (lines 822-823 and 827-828)
are `==` comparison expressions: they evaluate and discard booleans, so the
state is unchanged beyond the aggressor-side update. -/
def L1.updateTradeTick (b : OrderBook) (t : TradeTick) : OrderBook :=
  match t.aggressor_side with
  | AggressorSide.SELL => L1.updateBid b t.price t.size
  | AggressorSide.BUY => L1.updateAsk b t.price t.size
  | AggressorSide.UNKNOWN => b

/-- `L1OrderBook.update_top`: dispatch on the tick kind. -/
def L1.update_top (b : OrderBook) : Tick → OrderBook
  | Tick.quote q => L1.updateQuoteTick b q
  | Tick.trade t => L1.updateTradeTick b t

/-- `OrderBook.add` as dispatched across the variants: `L1OrderBook.add`
raises `NotImplementedError`, `L2OrderBook.add` processes then inserts, the
base (`L3`) inserts directly. -/
def OrderBook.add (b : OrderBook) (o : Order) : Except String OrderBook :=
  match b.level with
  | OrderBookLevel.L1 => Except.error "Use update(order) for L1OrderBook"
  | OrderBookLevel.L2 => Except.ok (L2.add b o)
  | OrderBookLevel.L3 => Except.ok (b.addBase o)

/-- `OrderBook.update` as dispatched across the variants. -/
def OrderBook.update (b : OrderBook) (o : Order) : OrderBook :=
  match b.level with
  | OrderBookLevel.L1 => L1.update b o
  | OrderBookLevel.L2 => L2.update b o
  | OrderBookLevel.L3 => b.updateBase o

/-- `OrderBook.delete` as dispatched across the variants. -/
def OrderBook.delete (b : OrderBook) (o : Order) : OrderBook :=
  match b.level with
  | OrderBookLevel.L1 => L1.delete b o
  | OrderBookLevel.L2 => L2.delete b o
  | OrderBookLevel.L3 => b.deleteBase o

/-- `OrderBookDelta`: a single difference carrying its book level, change
type, order and timestamp. -/
structure OrderBookDelta where
  level : OrderBookLevel
  type : OrderBookDeltaType
  order : Order
  timestamp_ns : Int
deriving DecidableEq, Repr

/-- `OrderBookDeltas`: a bulk change carrying its book level, the list of
deltas and a timestamp. -/
structure OrderBookDeltas where
  level : OrderBookLevel
  deltas : List OrderBookDelta
  timestamp_ns : Int
deriving DecidableEq, Repr

/-- `OrderBookSnapshot`: bid and ask (price, volume) pairs with a level and
timestamp. -/
structure OrderBookSnapshot where
  level : OrderBookLevel
  bids : List (ℚ × ℚ)
  asks : List (ℚ × ℚ)
  timestamp_ns : Int
deriving DecidableEq, Repr

/-- `OrderBookData`: the inbound data union. -/
inductive OrderBookData where
  | snapshot : OrderBookSnapshot → OrderBookData
  | deltas : OrderBookDeltas → OrderBookData
  | delta : OrderBookDelta → OrderBookData
deriving DecidableEq, Repr

/-- `OrderBook._apply_delta`: dispatch on the delta type, then advance the
timestamp to the delta's timestamp. -/
def OrderBook.applyDeltaBase (b : OrderBook) (d : OrderBookDelta) : Except String OrderBook :=
  match
    (match d.type with
     | OrderBookDeltaType.ADD => b.add d.order
     | OrderBookDeltaType.UPDATE => Except.ok (b.update d.order)
     | OrderBookDeltaType.DELETE => Except.ok (b.delete d.order)) with
  | Except.ok b' => Except.ok { b' with last_update_timestamp_ns := d.timestamp_ns }
  | Except.error e => Except.error e

/-- `OrderBook.apply_delta`: `Condition.equal(delta.level, self.level, ...)`
then `_apply_delta`. -/
def OrderBook.apply_delta (b : OrderBook) (d : OrderBookDelta) : Except String OrderBook :=
  if d.level = b.level then b.applyDeltaBase d
  else Except.error "delta.level was not equal to self.level"

/-- The `for delta in deltas.deltas: self._apply_delta(delta)` loop of
`OrderBook.apply_deltas`. -/
def applyDeltaList (b : OrderBook) : List OrderBookDelta → Except String OrderBook
  | [] => Except.ok b
  | d :: ds =>
    match b.applyDeltaBase d with
    | Except.ok b' => applyDeltaList b' ds
    | Except.error e => Except.error e

/-- `OrderBook.apply_deltas`: `Condition.equal(deltas.level, self.level, ...)`
then apply each delta in order through `_apply_delta` (no per-delta level
check). -/
def OrderBook.apply_deltas (b : OrderBook) (ds : OrderBookDeltas) : Except String OrderBook :=
  if ds.level = b.level then applyDeltaList b ds.deltas
  else Except.error "deltas.level was not equal to self.level"

/-- `OrderBook.apply_snapshot`: check the level, `clear()`, then `update` each
bid and each ask (the source comments that `update` is used instead of `add`
so the call also works for the L1 book), and finally set the timestamp. -/
def OrderBook.apply_snapshot (b : OrderBook) (s : OrderBookSnapshot) : Except String OrderBook :=
  if s.level = b.level then
    let b0 := b.clear
    let b1 := s.bids.foldl
      (fun bk pv => bk.update (Order.mk' pv.1 pv.2 OrderSide.BUY)) b0
    let b2 := s.asks.foldl
      (fun bk pv => bk.update (Order.mk' pv.1 pv.2 OrderSide.SELL)) b1
    Except.ok { b2 with last_update_timestamp_ns := s.timestamp_ns }
  else Except.error "snapshot.level was not equal to self.level"

/-- `OrderBook.apply` (source lines 264-286).  Line 279 reads
`Condition(data.level, self.level, "data.level", "self.level")`: it constructs
a `Condition` value and discards it.  Modelled from the spec (design note in
section 9): this constructor-style call performs no equality validation, so
only the branches that go through `apply_snapshot` / `apply_deltas` check the
level, while the `OrderBookDelta` branch calls `_apply_delta` directly. -/
def OrderBook.apply (b : OrderBook) : OrderBookData → Except String OrderBook
  | OrderBookData.snapshot s => b.apply_snapshot s
  | OrderBookData.deltas ds => b.apply_deltas ds
  | OrderBookData.delta d => b.applyDeltaBase d

/-- A public order-book mutation: one of the three data-application entry
points of `OrderBook`. -/
inductive BookOp where
  | applyDelta : OrderBookDelta → BookOp
  | applyDeltas : OrderBookDeltas → BookOp
  | applySnapshot : OrderBookSnapshot → BookOp
deriving DecidableEq, Repr

/-- Run one public mutation on a book. -/
def BookOp.run (op : BookOp) (b : OrderBook) : Except String OrderBook :=
  match op with
  | BookOp.applyDelta d => b.apply_delta d
  | BookOp.applyDeltas ds => b.apply_deltas ds
  | BookOp.applySnapshot s => b.apply_snapshot s

/-- The timestamps a mutation writes into `last_update_timestamp_ns`: the
delta's timestamp, each batched delta's timestamp, or the snapshot's
timestamp. -/
def BookOp.writtenTimestamps : BookOp → List Int
  | BookOp.applyDelta d => [d.timestamp_ns]
  | BookOp.applyDeltas ds => ds.deltas.map (fun d => d.timestamp_ns)
  | BookOp.applySnapshot s => [s.timestamp_ns]

/-- Order type enumeration (`order_type.pyx`): the four concrete variants
dispatched by `load_order`, plus the remaining enum values collapsed into
`OTHER` (they hit the `raise RuntimeError("Invalid order type")` branch). -/
inductive OrderTypeTag where
  | MARKET
  | LIMIT
  | STOP_MARKET
  | STOP_LIMIT
  | OTHER
deriving DecidableEq, Repr

/-- Serialized events as stored in the execution database.  The serializer is
pluggable with contract `deserialize(serialize(event)) = event`, so events are
stored as themselves.  `orderInitialized` carries the order type used for
variant dispatch; payloads distinguish otherwise-opaque events. -/
inductive Event where
  | orderInitialized : OrderTypeTag → Nat → Event
  | accountState : Nat → Event
  | orderFilled : Nat → Event
  | generic : Nat → Event
deriving DecidableEq, Repr

/-- An event-sourced order aggregate as reconstructed by `load_order`:
the concrete variant tag, the seed `OrderInitialized` event, and the events
applied after the seed, in order.  Modelled from the spec (section 3): orders
are created from the initial event and mutated only by `apply(event)`. -/
structure ROrder where
  order_type : OrderTypeTag
  init : Event
  events : List Event
deriving DecidableEq, Repr

/-- `Order.apply(event)`: append the event to the aggregate's history. -/
def ROrder.apply (o : ROrder) (e : Event) : ROrder :=
  { o with events := o.events ++ [e] }

/-- `MarketOrder.create(init=init)`. -/
def MarketOrder.create (init : Event) : ROrder :=
  { order_type := OrderTypeTag.MARKET, init := init, events := [] }

/-- `LimitOrder.create(init=init)`. -/
def LimitOrder.create (init : Event) : ROrder :=
  { order_type := OrderTypeTag.LIMIT, init := init, events := [] }

/-- `StopMarketOrder.create(init=init)`. -/
def StopMarketOrder.create (init : Event) : ROrder :=
  { order_type := OrderTypeTag.STOP_MARKET, init := init, events := [] }

/-- `StopLimitOrder.create(init=init)`. -/
def StopLimitOrder.create (init : Event) : ROrder :=
  { order_type := OrderTypeTag.STOP_LIMIT, init := init, events := [] }

/-- An event-sourced account aggregate: seed `AccountState` event plus applied
events.  Modelled from the spec (section 3). -/
structure RAccount where
  init : Event
  events : List Event
deriving DecidableEq, Repr

/-- `Account.apply(event)`. -/
def RAccount.apply (a : RAccount) (e : Event) : RAccount :=
  { a with events := a.events ++ [e] }

/-- An event-sourced position aggregate: seed `OrderFilled` event plus applied
events.  Modelled from the spec (section 3). -/
structure RPosition where
  fill : Event
  events : List Event
deriving DecidableEq, Repr

/-- `Position.apply(event)`. -/
def RPosition.apply (p : RPosition) (e : Event) : RPosition :=
  { p with events := p.events ++ [e] }

/-- The `for event in events: apply(event)` loop shared by the load methods. -/
def applyLoopOrder (o : ROrder) : List Event → ROrder
  | [] => o
  | e :: rest => applyLoopOrder (o.apply e) rest

/-- The apply loop of `load_account`. -/
def applyLoopAccount (a : RAccount) : List Event → RAccount
  | [] => a
  | e :: rest => applyLoopAccount (a.apply e) rest

/-- The apply loop of `load_position`. -/
def applyLoopPosition (p : RPosition) : List Event → RPosition
  | [] => p
  | e :: rest => applyLoopPosition (p.apply e) rest

/-- `RedisExecutionDatabase.load_order` (source lines 224-264): return `None`
on an empty event list; otherwise deserialize the first event as
`OrderInitialized`, dispatch on `order_type` to the matching concrete
constructor (raising `RuntimeError` on any other type), then apply the
remaining events in order.  A first event of the wrong class fails the typed
`cdef OrderInitialized` assignment. -/
def load_order (events : List Event) : Except String (Option ROrder) :=
  match events with
  | [] => Except.ok none
  | e :: rest =>
    match e with
    | Event.orderInitialized ot _ =>
      match ot with
      | OrderTypeTag.MARKET => Except.ok (some (applyLoopOrder (MarketOrder.create e) rest))
      | OrderTypeTag.LIMIT => Except.ok (some (applyLoopOrder (LimitOrder.create e) rest))
      | OrderTypeTag.STOP_MARKET =>
        Except.ok (some (applyLoopOrder (StopMarketOrder.create e) rest))
      | OrderTypeTag.STOP_LIMIT =>
        Except.ok (some (applyLoopOrder (StopLimitOrder.create e) rest))
      | OrderTypeTag.OTHER => Except.error "Invalid order type"
    | _ => Except.error "first event was not OrderInitialized"

/-- `RedisExecutionDatabase.load_account` (source lines 197-222): return
`None` on an empty event list; otherwise seed `Account` with the first event
(an `AccountState`) and apply the rest in order. -/
def load_account (events : List Event) : Except String (Option RAccount) :=
  match events with
  | [] => Except.ok none
  | e :: rest =>
    match e with
    | Event.accountState _ => Except.ok (some (applyLoopAccount ⟨e, []⟩ rest))
    | _ => Except.error "first event was not AccountState"

/-- `RedisExecutionDatabase.load_position` (source lines 266-295): return
`None` on an empty event list; otherwise seed `Position` with the first event
(an `OrderFilled` fill) and apply the rest in order. -/
def load_position (events : List Event) : Except String (Option RPosition) :=
  match events with
  | [] => Except.ok none
  | e :: rest =>
    match e with
    | Event.orderFilled _ => Except.ok (some (applyLoopPosition ⟨e, []⟩ rest))
    | _ => Except.error "first event was not OrderFilled"

/-- The Redis store as the execution database sees it: for each key, the list
of serialized events appended so far (`RPUSH` / `LRANGE 0 -1`). -/
structure RedisStore where
  entries : List (String × List Event)
deriving DecidableEq, Repr

/-- The value of `LRANGE key 0 -1`: the key's event list, empty when the key
is absent. -/
def getAssoc (k : String) : List (String × List Event) → List Event
  | [] => []
  | kv :: rest => if k = kv.1 then kv.2 else getAssoc k rest

/-- `RPUSH key value`: append to the key's list (creating it when absent) and
return the length of the list after the push, as Redis replies. -/
def pushAssoc (k : String) (v : Event) :
    List (String × List Event) → List (String × List Event) × Nat
  | [] => ([(k, [v])], 1)
  | kv :: rest =>
    if k = kv.1 then ((kv.1, kv.2 ++ [v]) :: rest, kv.2.length + 1)
    else
      let r := pushAssoc k v rest
      (kv :: r.1, r.2)

/-- `LRANGE key 0 -1` on the store. -/
def RedisStore.lrange (s : RedisStore) (k : String) : List Event :=
  getAssoc k s.entries

/-- `RPUSH key value` on the store, returning the new store and the reply. -/
def RedisStore.rpush (s : RedisStore) (k : String) (v : Event) : RedisStore × Nat :=
  let r := pushAssoc k v s.entries
  (⟨r.1⟩, r.2)

/-- The outcome of one add/update call on the Redis execution database: the
new store, the integer reply of the push, and whether the integrity error was
logged. -/
structure DbWrite where
  store : RedisStore
  reply : Nat
  warned : Bool
deriving DecidableEq, Repr

/-- `RedisExecutionDatabase.add_order` (source lines 356-374): push the
order's last event onto its key and log an integrity error when the reply is
greater than 1 (the key already existed and was appended to). -/
def add_order (s : RedisStore) (key : String) (lastEvent : Event) : DbWrite :=
  let r := s.rpush key lastEvent
  { store := r.1, reply := r.2, warned := decide (1 < r.2) }

/-- `RedisExecutionDatabase.update_order` (source lines 436-455): push the
order's last event onto its key and log an integrity error when the reply
equals 1 (the updated order did not already exist). -/
def update_order (s : RedisStore) (key : String) (lastEvent : Event) : DbWrite :=
  let r := s.rpush key lastEvent
  { store := r.1, reply := r.2, warned := decide (r.2 = 1) }

/-- `RedisExecutionDatabase.add_position` (source lines 376-395): same push
and `reply > 1` integrity check as `add_order`, on the positions key space. -/
def add_position (s : RedisStore) (key : String) (lastEvent : Event) : DbWrite :=
  let r := s.rpush key lastEvent
  { store := r.1, reply := r.2, warned := decide (1 < r.2) }

/-- `RedisExecutionDatabase.update_position` (source lines 457-476): same push
and `reply == 1` integrity check as `update_order`. -/
def update_position (s : RedisStore) (key : String) (lastEvent : Event) : DbWrite :=
  let r := s.rpush key lastEvent
  { store := r.1, reply := r.2, warned := decide (r.2 = 1) }

/-- The state of a `BypassExecutionDatabase` (`execution/database.pyx` lines
118-193): only the trader identifier (and a logger); no stored data. -/
structure BypassExecutionDatabase where
  trader_id : String
deriving DecidableEq, Repr

/-- One call to a mutating method of `BypassExecutionDatabase`, with the
argument each method receives. -/
inductive BypassOp where
  | flush : BypassOp
  | addAccount : RAccount → BypassOp
  | addOrder : ROrder → BypassOp
  | addPosition : RPosition → BypassOp
  | updateAccount : RAccount → BypassOp
  | updateOrder : ROrder → BypassOp
  | updatePosition : RPosition → BypassOp
  | updateStrategy : String → BypassOp
  | deleteStrategy : String → BypassOp
deriving DecidableEq, Repr

/-- Run one mutating call: every method body is `pass` (a no-op), so the
database state is returned unchanged. -/
def BypassExecutionDatabase.runOp (db : BypassExecutionDatabase) :
    BypassOp → BypassExecutionDatabase
  | BypassOp.flush => db
  | BypassOp.addAccount _ => db
  | BypassOp.addOrder _ => db
  | BypassOp.addPosition _ => db
  | BypassOp.updateAccount _ => db
  | BypassOp.updateOrder _ => db
  | BypassOp.updatePosition _ => db
  | BypassOp.updateStrategy _ => db
  | BypassOp.deleteStrategy _ => db

/-- `BypassExecutionDatabase.load_accounts`: `return {}`. -/
def BypassExecutionDatabase.load_accounts (_ : BypassExecutionDatabase) :
    List (String × RAccount) := []

/-- `BypassExecutionDatabase.load_orders`: `return {}`. -/
def BypassExecutionDatabase.load_orders (_ : BypassExecutionDatabase) :
    List (String × ROrder) := []

/-- `BypassExecutionDatabase.load_positions`: `return {}`. -/
def BypassExecutionDatabase.load_positions (_ : BypassExecutionDatabase) :
    List (String × RPosition) := []

/-- `BypassExecutionDatabase.load_strategy`: `return {}`. -/
def BypassExecutionDatabase.load_strategy (_ : BypassExecutionDatabase)
    (_ : String) : List (String × Event) := []

/-- `BypassExecutionDatabase.load_account`: `return None`. -/
def BypassExecutionDatabase.load_account (_ : BypassExecutionDatabase)
    (_ : String) : Option RAccount := none

/-- `BypassExecutionDatabase.load_order`: `return None`. -/
def BypassExecutionDatabase.load_order (_ : BypassExecutionDatabase)
    (_ : String) : Option ROrder := none

/-- `BypassExecutionDatabase.load_position`: `return None`. -/
def BypassExecutionDatabase.load_position (_ : BypassExecutionDatabase)
    (_ : String) : Option RPosition := none

instance {ε α : Type} [DecidableEq ε] [DecidableEq α] : DecidableEq (Except ε α) := fun x y =>
  match x, y with
  | Except.ok a, Except.ok b =>
    if h : a = b then isTrue (h ▸ rfl) else isFalse (by simp [h])
  | Except.error e, Except.error f =>
    if h : e = f then isTrue (h ▸ rfl) else isFalse (by simp [h])
  | Except.ok _, Except.error _ => isFalse (by simp)
  | Except.error _, Except.ok _ => isFalse (by simp)

/-!  Helper lemmas shared by the claim theorems. -/

theorem applyLoopOrder_eq_foldl (evs : List Event) :
    ∀ o : ROrder, applyLoopOrder o evs = evs.foldl ROrder.apply o := by
  induction evs with
  | nil => intro o; rfl
  | cons e rest ih => intro o; simp [applyLoopOrder, List.foldl, ih]

theorem applyLoopAccount_eq_foldl (evs : List Event) :
    ∀ a : RAccount, applyLoopAccount a evs = evs.foldl RAccount.apply a := by
  induction evs with
  | nil => intro a; rfl
  | cons e rest ih => intro a; simp [applyLoopAccount, List.foldl, ih]

theorem applyLoopPosition_eq_foldl (evs : List Event) :
    ∀ p : RPosition, applyLoopPosition p evs = evs.foldl RPosition.apply p := by
  induction evs with
  | nil => intro p; rfl
  | cons e rest ih => intro p; simp [applyLoopPosition, List.foldl, ih]

theorem pushAssoc_reply (k : String) (v : Event) (l : List (String × List Event)) :
    (pushAssoc k v l).2 = (getAssoc k l).length + 1 := by
  induction l with
  | nil => rfl
  | cons kv rest ih =>
    by_cases h : k = kv.1
    · simp [pushAssoc, getAssoc, h]
    · simp [pushAssoc, getAssoc, h, ih]

/-!  Concrete instances used by the claim theorems. -/

/-- A fresh L2 book with price precision 2. -/
def c1Book : OrderBook := OrderBook.mkBook OrderBookLevel.L2 2 0

/-- A single delta whose level (L3) differs from `c1Book`'s level (L2). -/
def c1Delta : OrderBookDelta :=
  { level := OrderBookLevel.L3, type := OrderBookDeltaType.ADD
    order := Order.mk' 100 5 OrderSide.BUY, timestamp_ns := 42 }

/-- The book produced by applying the mismatched-level delta through
`OrderBook.apply`. -/
def c1BookAfter : OrderBook :=
  match c1Book.apply (OrderBookData.delta c1Delta) with
  | Except.ok b => b
  | Except.error _ => c1Book

/-- C1: the claim says that applying any `OrderBookData` whose level differs
from the book's level fails with a validation error and leaves the book
unchanged.  The code disagrees on the `OrderBookDelta` branch: line 279 of
`apply` is a constructor-style `Condition(...)` call rather than
`Condition.equal`, and the delta branch calls `_apply_delta` directly, so an
L3-level delta applied to an L2 book succeeds and mutates the book (new bid
level, timestamp advanced to 42) even though `apply_delta` — the path with the
explicit equality check — rejects the very same delta. -/
theorem C1_code_evaluation :
    c1Delta.level ≠ c1Book.level ∧
    c1Book.apply (OrderBookData.delta c1Delta) = Except.ok c1BookAfter ∧
    c1BookAfter ≠ c1Book ∧
    c1BookAfter.last_update_timestamp_ns = 42 ∧
    c1BookAfter.bids.levels ≠ [] ∧
    c1Book.apply_delta c1Delta = Except.error "delta.level was not equal to self.level" := by
  decide

/-- A fresh L1 book. -/
def c2Book0 : OrderBook := OrderBook.mkBook OrderBookLevel.L1 0 0

/-- The L1 book after a quote tick setting top bid 100 (size 10) and top ask
101 (size 10); both cached tops are populated. -/
def c2Book1 : OrderBook := L1.update_top c2Book0 (Tick.quote ⟨100, 101, 10, 10⟩)

/-- The trade tick with a SELL aggressor at price 102, which takes the new top
bid above the cached top ask of 101. -/
def c2Trade : TradeTick := ⟨102, 5, AggressorSide.SELL⟩

/-- The L1 book after the crossing trade tick. -/
def c2Book2 : OrderBook := L1.update_top c2Book1 (Tick.trade c2Trade)

/-- C2: the claim says `update_top` with a SELL-aggressor trade tick whose
price lifts the top bid to or above the top ask assigns the top ask price (and
its level's price) to the new top bid price, leaving the book uncrossed.  The
code disagrees: lines 822-823 of `_update_trade_tick` are `==` comparison
expressions (no-ops), so after the trade at 102 the top bid is 102 while the
top ask and its cached order remain at 101 — the book is left crossed. -/
theorem C2_code_evaluation :
    c2Book1.best_bid_price = some 100 ∧
    c2Book1.best_ask_price = some 101 ∧
    c2Book1.top_bid.isSome = true ∧
    c2Book1.top_ask.isSome = true ∧
    c2Book2.best_bid_price = some 102 ∧
    c2Book2.best_ask_price = some 101 ∧
    c2Book2.top_bid.map (fun o => o.price) = some 102 ∧
    c2Book2.top_ask.map (fun o => o.price) = some 101 := by
  decide

/-- The empty Redis store. -/
def c8Store0 : RedisStore := ⟨[]⟩

/-- C8 counterexample: on an empty store (the orders key does not yet exist),
`add_order` receives reply 1 — the push created the key — and does NOT log an
integrity warning, refuting the claim that after `add` a warning is logged if
and only if the reply equals 1, meaning the key already existed. -/
theorem C8_counterexample :
    (add_order c8Store0 "Trader-000:Orders:O-1" (Event.generic 0)).reply = 1 ∧
    (add_order c8Store0 "Trader-000:Orders:O-1" (Event.generic 0)).warned = false := by
  decide

/-- C8 amended: for add and update on orders and positions, an integrity
warning is logged after `add` if and only if the reply exceeds 1 — equivalent
to the key already existing — and after `update` if and only if the reply
equals 1 — equivalent to the key not already existing. -/
theorem C8_amended_integrity_warnings :
    ∀ (s : RedisStore) (key : String) (e : Event),
      ((add_order s key e).warned = true ↔ 1 < (add_order s key e).reply) ∧
      ((add_order s key e).warned = true ↔ s.lrange key ≠ []) ∧
      ((update_order s key e).warned = true ↔ (update_order s key e).reply = 1) ∧
      ((update_order s key e).warned = true ↔ s.lrange key = []) ∧
      ((add_position s key e).warned = true ↔ 1 < (add_position s key e).reply) ∧
      ((add_position s key e).warned = true ↔ s.lrange key ≠ []) ∧
      ((update_position s key e).warned = true ↔ (update_position s key e).reply = 1) ∧
      ((update_position s key e).warned = true ↔ s.lrange key = []) := by
  intro s key e
  have hr : (pushAssoc key e s.entries).2 = (getAssoc key s.entries).length + 1 :=
    pushAssoc_reply key e s.entries
  constructor
  · simp [add_order, RedisStore.rpush]
  constructor
  · simp [add_order, RedisStore.rpush, RedisStore.lrange, hr, List.length_pos_iff_ne_nil]
  constructor
  · simp [update_order, RedisStore.rpush]
  constructor
  · simp [update_order, RedisStore.rpush, RedisStore.lrange, hr, List.length_eq_zero]
  constructor
  · simp [add_position, RedisStore.rpush]
  constructor
  · simp [add_position, RedisStore.rpush, RedisStore.lrange, hr, List.length_pos_iff_ne_nil]
  constructor
  · simp [update_position, RedisStore.rpush]
  · simp [update_position, RedisStore.rpush, RedisStore.lrange, hr, List.length_eq_zero]

/-- C9: the load contract of the Redis execution database.  Loading from an
empty event list returns `None` (and only then); a non-empty order event list
is seeded by its first event, an `OrderInitialized`, dispatched on
`order_type` to the matching concrete variant constructor, with the remaining
events left-folded through `apply`; accounts and positions follow the same
contract seeded by the first `AccountState` and first `OrderFilled`. -/
theorem C9_load_contract :
    (∀ events : List Event, load_order events = Except.ok none ↔ events = []) ∧
    (∀ events : List Event, load_account events = Except.ok none ↔ events = []) ∧
    (∀ events : List Event, load_position events = Except.ok none ↔ events = []) ∧
    (∀ (n : Nat) (rest : List Event),
      load_order (Event.orderInitialized OrderTypeTag.MARKET n :: rest) =
        Except.ok (some (rest.foldl ROrder.apply
          (MarketOrder.create (Event.orderInitialized OrderTypeTag.MARKET n))))) ∧
    (∀ (n : Nat) (rest : List Event),
      load_order (Event.orderInitialized OrderTypeTag.LIMIT n :: rest) =
        Except.ok (some (rest.foldl ROrder.apply
          (LimitOrder.create (Event.orderInitialized OrderTypeTag.LIMIT n))))) ∧
    (∀ (n : Nat) (rest : List Event),
      load_order (Event.orderInitialized OrderTypeTag.STOP_MARKET n :: rest) =
        Except.ok (some (rest.foldl ROrder.apply
          (StopMarketOrder.create (Event.orderInitialized OrderTypeTag.STOP_MARKET n))))) ∧
    (∀ (n : Nat) (rest : List Event),
      load_order (Event.orderInitialized OrderTypeTag.STOP_LIMIT n :: rest) =
        Except.ok (some (rest.foldl ROrder.apply
          (StopLimitOrder.create (Event.orderInitialized OrderTypeTag.STOP_LIMIT n))))) ∧
    (∀ (n : Nat) (rest : List Event),
      load_account (Event.accountState n :: rest) =
        Except.ok (some (rest.foldl RAccount.apply ⟨Event.accountState n, []⟩))) ∧
    (∀ (n : Nat) (rest : List Event),
      load_position (Event.orderFilled n :: rest) =
        Except.ok (some (rest.foldl RPosition.apply ⟨Event.orderFilled n, []⟩))) := by
  refine ⟨?_, ?_, ?_, ?_, ?_, ?_, ?_, ?_, ?_⟩
  · intro events
    cases events with
    | nil => simp [load_order]
    | cons e rest =>
      cases e with
      | orderInitialized ot n => cases ot <;> simp [load_order]
      | accountState n => simp [load_order]
      | orderFilled n => simp [load_order]
      | generic n => simp [load_order]
  · intro events
    cases events with
    | nil => simp [load_account]
    | cons e rest => cases e <;> simp [load_account]
  · intro events
    cases events with
    | nil => simp [load_position]
    | cons e rest => cases e <;> simp [load_position]
  · intro n rest; simp [load_order, applyLoopOrder_eq_foldl]
  · intro n rest; simp [load_order, applyLoopOrder_eq_foldl]
  · intro n rest; simp [load_order, applyLoopOrder_eq_foldl]
  · intro n rest; simp [load_order, applyLoopOrder_eq_foldl]
  · intro n rest; simp [load_account, applyLoopAccount_eq_foldl]
  · intro n rest; simp [load_position, applyLoopPosition_eq_foldl]

/-- C10: after any sequence of mutating calls on the bypass execution
database, every bulk load returns the empty dictionary, every single-entity
load returns `None`, and the database state itself is unchanged (all mutating
operations are no-ops). -/
theorem C10_bypass_database_is_inert :
    ∀ (db : BypassExecutionDatabase) (ops : List BypassOp) (k : String),
      (ops.foldl BypassExecutionDatabase.runOp db) = db ∧
      (ops.foldl BypassExecutionDatabase.runOp db).load_accounts = [] ∧
      (ops.foldl BypassExecutionDatabase.runOp db).load_orders = [] ∧
      (ops.foldl BypassExecutionDatabase.runOp db).load_positions = [] ∧
      (ops.foldl BypassExecutionDatabase.runOp db).load_strategy k = [] ∧
      (ops.foldl BypassExecutionDatabase.runOp db).load_account k = none ∧
      (ops.foldl BypassExecutionDatabase.runOp db).load_order k = none ∧
      (ops.foldl BypassExecutionDatabase.runOp db).load_position k = none := by
  intro db ops k
  have hfix : ops.foldl BypassExecutionDatabase.runOp db = db := by
    induction ops with
    | nil => rfl
    | cons op rest ih =>
      cases op <;> simpa [BypassExecutionDatabase.runOp] using ih
  exact ⟨hfix, rfl, rfl, rfl, rfl, rfl, rfl, rfl⟩

/-- C7: the top-of-book accessors.  On a fresh book all of them return `None`;
on any book, `best_bid_price` / `best_bid_qty` return `None` exactly when the
bid side is empty, `best_ask_price` / `best_ask_qty` exactly when the ask side
is empty, `spread` / `midpoint` exactly when at least one side is empty, and
when both sides are non-empty the spread is the best ask price minus the best
bid price and the midpoint their average. -/
theorem C7_top_of_book_accessors :
    ((OrderBook.mkBook OrderBookLevel.L2 2 0).best_bid_price = none ∧
     (OrderBook.mkBook OrderBookLevel.L2 2 0).best_ask_price = none ∧
     (OrderBook.mkBook OrderBookLevel.L2 2 0).best_bid_qty = none ∧
     (OrderBook.mkBook OrderBookLevel.L2 2 0).best_ask_qty = none ∧
     (OrderBook.mkBook OrderBookLevel.L2 2 0).spread = none ∧
     (OrderBook.mkBook OrderBookLevel.L2 2 0).midpoint = none) ∧
    ∀ b : OrderBook,
      (b.best_bid_price = none ↔ b.bids.levels = []) ∧
      (b.best_bid_qty = none ↔ b.bids.levels = []) ∧
      (b.best_ask_price = none ↔ b.asks.levels = []) ∧
      (b.best_ask_qty = none ↔ b.asks.levels = []) ∧
      (b.spread = none ↔ b.bids.levels = [] ∨ b.asks.levels = []) ∧
      (b.midpoint = none ↔ b.bids.levels = [] ∨ b.asks.levels = []) ∧
      (∀ bp ap, b.best_bid_price = some bp → b.best_ask_price = some ap →
        b.spread = some (ap - bp) ∧ b.midpoint = some ((ap + bp) / 2)) := by
  constructor
  · exact ⟨rfl, rfl, rfl, rfl, rfl, rfl⟩
  intro b
  cases hb : b.bids.levels with
  | nil =>
    cases ha : b.asks.levels with
    | nil =>
      simp [OrderBook.best_bid_price, OrderBook.best_ask_price, OrderBook.best_bid_qty,
        OrderBook.best_ask_qty, OrderBook.spread, OrderBook.midpoint, Ladder.top, hb, ha]
    | cons a as =>
      simp [OrderBook.best_bid_price, OrderBook.best_ask_price, OrderBook.best_bid_qty,
        OrderBook.best_ask_qty, OrderBook.spread, OrderBook.midpoint, Ladder.top, hb, ha]
  | cons l ls =>
    cases ha : b.asks.levels with
    | nil =>
      simp [OrderBook.best_bid_price, OrderBook.best_ask_price, OrderBook.best_bid_qty,
        OrderBook.best_ask_qty, OrderBook.spread, OrderBook.midpoint, Ladder.top, hb, ha]
    | cons a as =>
      refine ⟨by simp [OrderBook.best_bid_price, Ladder.top, hb],
        by simp [OrderBook.best_bid_qty, Ladder.top, hb],
        by simp [OrderBook.best_ask_price, Ladder.top, ha],
        by simp [OrderBook.best_ask_qty, Ladder.top, ha],
        by simp [OrderBook.spread, Ladder.top, hb, ha],
        by simp [OrderBook.midpoint, Ladder.top, hb, ha], ?_⟩
      intro bp ap hbp hap
      have hbp' : l.price = bp := by
        simpa [OrderBook.best_bid_price, Ladder.top, hb] using hbp
      have hap' : a.price = ap := by
        simpa [OrderBook.best_ask_price, Ladder.top, ha] using hap
      constructor
      · simp [OrderBook.spread, Ladder.top, hb, ha, hbp', hap']
      · simp [OrderBook.midpoint, Ladder.top, hb, ha, hbp', hap']

/-- A two-sided L2 book used to witness the non-empty case of C7. -/
def c7Book : OrderBook :=
  { level := OrderBookLevel.L2
    price_precision := 2
    size_precision := 0
    bids := ⟨true, 2, 0, [⟨100, [⟨OrderId.fmtPrice 100 2, 100, 5, OrderSide.BUY⟩]⟩]⟩
    asks := ⟨false, 2, 0, [⟨101, [⟨OrderId.fmtPrice 101 2, 101, 7, OrderSide.SELL⟩]⟩]⟩
    last_update_timestamp_ns := 0 }

/-- Witness for C7 at a concrete two-sided book: the inner implications are
discharged with the book's actual top prices, giving the spread and
midpoint values. -/
theorem C7_witness :
    c7Book.best_bid_price = some 100 ∧ c7Book.best_ask_price = some 101 ∧
    c7Book.spread = some (101 - 100) ∧ c7Book.midpoint = some ((101 + 100) / 2) := by
  have h := (C7_top_of_book_accessors.2 c7Book).2.2.2.2.2.2 100 101 (by decide) (by decide)
  exact ⟨by decide, by decide, h.1, h.2⟩

/-- A fresh L3 book for the C3 counterexample. -/
def c3Book0 : OrderBook := OrderBook.mkBook OrderBookLevel.L3 2 0

/-- An L3 ADD delta stamped 100. -/
def c3d1 : OrderBookDelta :=
  { level := OrderBookLevel.L3, type := OrderBookDeltaType.ADD
    order := Order.mk' 100 1 OrderSide.BUY, timestamp_ns := 100 }

/-- An L3 ADD delta stamped 50, older than `c3d1`. -/
def c3d2 : OrderBookDelta :=
  { level := OrderBookLevel.L3, type := OrderBookDeltaType.ADD
    order := Order.mk' 101 1 OrderSide.BUY, timestamp_ns := 50 }

/-- The book after applying `c3d1`. -/
def c3Book1 : OrderBook :=
  match (BookOp.applyDelta c3d1).run c3Book0 with
  | Except.ok b => b
  | Except.error _ => c3Book0

/-- The book after applying `c3d1` then `c3d2`. -/
def c3Book2 : OrderBook :=
  match (BookOp.applyDelta c3d2).run c3Book1 with
  | Except.ok b => b
  | Except.error _ => c3Book1

/-- C3 counterexample: both mutations succeed and both deltas carry the book's
level, yet the second mutation drops `last_update_timestamp_ns` from 100 to 50
— the code assigns the incoming timestamp unconditionally, so the claimed
unconditional monotonicity is false. -/
theorem C3_counterexample :
    (BookOp.applyDelta c3d1).run c3Book0 = Except.ok c3Book1 ∧
    (BookOp.applyDelta c3d2).run c3Book1 = Except.ok c3Book2 ∧
    c3d1.level = c3Book0.level ∧ c3d2.level = c3Book1.level ∧
    c3Book1.last_update_timestamp_ns = 100 ∧
    c3Book2.last_update_timestamp_ns = 50 ∧
    c3Book2.last_update_timestamp_ns < c3Book1.last_update_timestamp_ns := by
  decide

/-- Sequential application of deltas through the public `apply_delta` entry
point, with its per-delta level check. -/
def applyDeltaSeq (b : OrderBook) : List OrderBookDelta → Except String OrderBook
  | [] => Except.ok b
  | d :: ds =>
    match b.apply_delta d with
    | Except.ok b' => applyDeltaSeq b' ds
    | Except.error e => Except.error e

theorem applyDeltaBase_timestamp {b b' : OrderBook} {d : OrderBookDelta}
    (h : b.applyDeltaBase d = Except.ok b') :
    b'.last_update_timestamp_ns = d.timestamp_ns := by
  unfold OrderBook.applyDeltaBase at h
  split at h
  · simp only [Except.ok.injEq] at h
    subst h
    rfl
  · exact absurd h (by simp)

theorem applyDeltaList_timestamp :
    ∀ (l : List OrderBookDelta) (b b' : OrderBook),
      applyDeltaList b l = Except.ok b' →
      b'.last_update_timestamp_ns = b.last_update_timestamp_ns ∨
        b'.last_update_timestamp_ns ∈ l.map (fun d => d.timestamp_ns) := by
  intro l
  induction l with
  | nil =>
    intro b b' h
    left
    unfold applyDeltaList at h
    simp only [Except.ok.injEq] at h
    rw [h]
  | cons d ds ih =>
    intro b b' h
    unfold applyDeltaList at h
    split at h
    · rename_i b2 heq
      rcases ih b2 b' h with h1 | h1
      · right
        rw [h1, applyDeltaBase_timestamp heq]
        simp
      · right
        simp [h1]
    · exact absurd h (by simp)

theorem apply_snapshot_timestamp {b b' : OrderBook} {s : OrderBookSnapshot}
    (h : b.apply_snapshot s = Except.ok b') :
    b'.last_update_timestamp_ns = s.timestamp_ns := by
  unfold OrderBook.apply_snapshot at h
  split at h
  · simp only [Except.ok.injEq] at h
    subst h
    rfl
  · exact absurd h (by simp)

/-- C3 amended: the code assigns `last_update_timestamp_ns` from the applied
data, so monotonicity holds exactly when the inbound timestamps do not run
backwards — for every book and every public mutation all of whose written
timestamps are at least the book's current timestamp, a successful mutation
leaves `last_update_timestamp_ns` greater than or equal to its prior value. -/
theorem C3_amended_timestamp_monotone (b b' : OrderBook) (op : BookOp)
    (hts : ∀ t ∈ op.writtenTimestamps, b.last_update_timestamp_ns ≤ t)
    (hrun : op.run b = Except.ok b') :
    b.last_update_timestamp_ns ≤ b'.last_update_timestamp_ns := by
  cases op with
  | applyDelta d =>
    replace hrun : b.apply_delta d = Except.ok b' := hrun
    unfold OrderBook.apply_delta at hrun
    split at hrun
    · rw [applyDeltaBase_timestamp hrun]
      exact hts d.timestamp_ns (by simp [BookOp.writtenTimestamps])
    · exact absurd hrun (by simp)
  | applyDeltas ds =>
    replace hrun : b.apply_deltas ds = Except.ok b' := hrun
    unfold OrderBook.apply_deltas at hrun
    split at hrun
    · rcases applyDeltaList_timestamp ds.deltas b b' hrun with h1 | h1
      · rw [h1]
      · exact hts b'.last_update_timestamp_ns
          (by simpa [BookOp.writtenTimestamps] using h1)
    · exact absurd hrun (by simp)
  | applySnapshot s =>
    replace hrun : b.apply_snapshot s = Except.ok b' := hrun
    rw [apply_snapshot_timestamp hrun]
    exact hts s.timestamp_ns (by simp [BookOp.writtenTimestamps])

/-- A fresh-book mutation with timestamp 150, used to witness C3. -/
def c3wOp : BookOp :=
  BookOp.applyDelta
    { level := OrderBookLevel.L3, type := OrderBookDeltaType.ADD
      order := Order.mk' 99 1 OrderSide.SELL, timestamp_ns := 150 }

/-- The book produced by the witness mutation. -/
def c3wBookAfter : OrderBook :=
  match c3wOp.run c3Book0 with
  | Except.ok bk => bk
  | Except.error _ => c3Book0

/-- Witness for the amended C3 at a concrete book and mutation. -/
theorem C3_amended_witness :
    (∀ t ∈ c3wOp.writtenTimestamps, c3Book0.last_update_timestamp_ns ≤ t) ∧
    c3wOp.run c3Book0 = Except.ok c3wBookAfter ∧
    c3Book0.last_update_timestamp_ns ≤ c3wBookAfter.last_update_timestamp_ns :=
  ⟨by decide, by decide,
    C3_amended_timestamp_monotone c3Book0 c3wBookAfter c3wOp (by decide) (by decide)⟩

/-!  Level preservation: none of the book mutations changes the variant tag. -/

theorem addBase_level (b : OrderBook) (o : Order) : (b.addBase o).level = b.level := by
  cases ho : o.side <;> simp [OrderBook.addBase, ho]

theorem updateBase_level (b : OrderBook) (o : Order) : (b.updateBase o).level = b.level := by
  cases ho : o.side <;> simp [OrderBook.updateBase, ho]

theorem deleteBase_level (b : OrderBook) (o : Order) : (b.deleteBase o).level = b.level := by
  cases ho : o.side <;> simp [OrderBook.deleteBase, ho]

theorem crossCheck_level (b : OrderBook) (o : Order) : (L1.crossCheck b o).level = b.level := by
  unfold L1.crossCheck
  split <;> (try split) <;> (try split) <;>
    simp [OrderBook.clear_asks, OrderBook.clear_bids]

theorem update_level (b : OrderBook) (o : Order) : (b.update o).level = b.level := by
  unfold OrderBook.update
  split
  · rw [L1.update, updateBase_level, crossCheck_level]
  · rw [L2.update, updateBase_level, L2.removeIfExists]
    split
    · rw [deleteBase_level]
    · split
      · rw [deleteBase_level]
      · rfl
  · exact updateBase_level b o

theorem delete_level (b : OrderBook) (o : Order) : (b.delete o).level = b.level := by
  unfold OrderBook.delete
  split
  · exact deleteBase_level b _
  · exact deleteBase_level b _
  · exact deleteBase_level b o

theorem add_level {b b' : OrderBook} {o : Order} (h : b.add o = Except.ok b') :
    b'.level = b.level := by
  unfold OrderBook.add at h
  split at h
  · exact absurd h (by simp)
  · simp only [Except.ok.injEq] at h
    rw [← h, L2.add, addBase_level]
  · simp only [Except.ok.injEq] at h
    rw [← h, addBase_level]

theorem applyDeltaBase_level {b b' : OrderBook} {d : OrderBookDelta}
    (h : b.applyDeltaBase d = Except.ok b') : b'.level = b.level := by
  unfold OrderBook.applyDeltaBase at h
  split at h
  · rename_i b2 heq
    simp only [Except.ok.injEq] at h
    rw [← h]
    show b2.level = b.level
    split at heq
    · exact add_level heq
    · simp only [Except.ok.injEq] at heq
      rw [← heq, update_level]
    · simp only [Except.ok.injEq] at heq
      rw [← heq, delete_level]
  · exact absurd h (by simp)

theorem applyDeltaList_eq_seq :
    ∀ (l : List OrderBookDelta) (b : OrderBook), (∀ d ∈ l, d.level = b.level) →
      applyDeltaList b l = applyDeltaSeq b l := by
  intro l
  induction l with
  | nil => intro b _; rfl
  | cons d rest ih =>
    intro b hall
    unfold applyDeltaList applyDeltaSeq OrderBook.apply_delta
    rw [if_pos (hall d (by simp))]
    cases h : b.applyDeltaBase d with
    | ok b2 =>
      have hlvl2 : b2.level = b.level := applyDeltaBase_level h
      exact ih b2 (fun d' hd' => (hall d' (by simp [hd'])).trans hlvl2.symm)
    | error e => rfl

/-- C6: applying a batch of deltas whose levels all match the book's level
leaves the book in exactly the same state — ladders and timestamp, which with
errors included means the same `Except` outcome — as applying each delta
sequentially through `apply_delta`, the timestamp advancing after each
delta. -/
theorem C6_batch_equals_sequential (b : OrderBook) (ds : OrderBookDeltas)
    (hlvl : ds.level = b.level) (hall : ∀ d ∈ ds.deltas, d.level = b.level) :
    b.apply_deltas ds = applyDeltaSeq b ds.deltas := by
  unfold OrderBook.apply_deltas
  rw [if_pos hlvl]
  exact applyDeltaList_eq_seq ds.deltas b hall

/-- A two-delta L2 batch used to witness C6. -/
def c6Deltas : OrderBookDeltas :=
  { level := OrderBookLevel.L2
    deltas :=
      [ { level := OrderBookLevel.L2, type := OrderBookDeltaType.ADD
          order := Order.mk' 100 5 OrderSide.BUY, timestamp_ns := 10 }
      , { level := OrderBookLevel.L2, type := OrderBookDeltaType.UPDATE
          order := Order.mk' 100 7 OrderSide.BUY, timestamp_ns := 20 } ]
    timestamp_ns := 20 }

/-- Witness for C6 on a fresh L2 book and a concrete two-delta batch. -/
theorem C6_witness :
    c6Deltas.level = c1Book.level ∧
    (∀ d ∈ c6Deltas.deltas, d.level = c1Book.level) ∧
    c1Book.apply_deltas c6Deltas = applyDeltaSeq c1Book c6Deltas.deltas :=
  ⟨by decide, by decide,
    C6_batch_equals_sequential c1Book c6Deltas (by decide) (by decide)⟩

theorem best_bid_price_eq (b : OrderBook) :
    b.best_bid_price = (b.bids.levels.head?).map (fun l => l.price) := by
  unfold OrderBook.best_bid_price Ladder.top
  cases b.bids.levels.head? <;> rfl

theorem best_ask_price_eq (b : OrderBook) :
    b.best_ask_price = (b.asks.levels.head?).map (fun l => l.price) := by
  unfold OrderBook.best_ask_price Ladder.top
  cases b.asks.levels.head? <;> rfl

/-- The L1 structural invariant on one side (spec I3): at most one level,
holding exactly one order whose id is the side name and whose price is the
level's price. -/
def L1SideWF (ld : Ladder) (s : OrderSide) : Prop :=
  ld.levels.length ≤ 1 ∧
  ∀ l ∈ ld.levels, l.orders.length = 1 ∧
    ∀ o ∈ l.orders, o.id = OrderId.sideName s ∧ o.price = l.price

instance (ld : Ladder) (s : OrderSide) : Decidable (L1SideWF ld s) := by
  unfold L1SideWF
  infer_instance

theorem l1_ladder_update (ld : Ladder) (s : OrderSide) (o : Order)
    (hwf : L1SideWF ld s) (hid : o.id = OrderId.sideName s) :
    (ld.update o).levels = [⟨o.price, [o]⟩] := by
  obtain ⟨hlen, hall⟩ := hwf
  cases hl : ld.levels with
  | nil =>
    unfold Ladder.update
    rw [hl]
    simp [findLevelPriceOfId, Ladder.add, Ladder.insertOrder, hl]
  | cons l ls =>
    have hls : ls = [] := by
      rw [hl] at hlen
      simp only [List.length_cons] at hlen
      exact List.length_eq_zero.mp (by omega)
    subst hls
    obtain ⟨holen, hords⟩ := hall l (by rw [hl]; simp)
    obtain ⟨w, hw⟩ := List.length_eq_one.mp holen
    obtain ⟨hwid, hwprice⟩ := hords w (by rw [hw]; simp)
    have hweq : w.id = o.id := by rw [hwid, hid]
    have hhas : l.hasId o.id = true := by
      rw [Level.hasId, hw]
      simp [hweq]
    unfold Ladder.update
    rw [hl]
    simp only [findLevelPriceOfId, hhas, if_true]
    by_cases hp : o.price = l.price
    · rw [if_pos hp]
      simp only [replaceInLevels, hhas, if_true]
      rw [hw]
      simp [replaceFirstId, hweq, hp]
    · rw [if_neg hp]
      rw [Ladder.add, Ladder.delete]
      rw [hl]
      simp only [removeFirstById, hhas, if_true]
      rw [hw]
      simp [eraseFirstId, hweq, Ladder.insertOrder]

/-- C5: on any well-formed L1 book, `update` with a BUY at or through the best
ask clears the entire ask side before inserting the bid (symmetrically for a
SELL through the best bid), and after any L1 update the book is not crossed:
whenever both tops exist, the best bid is strictly below the best ask. -/
theorem C5_l1_update_not_crossed (b b' : OrderBook) (o : Order)
    (hlvl : b.level = OrderBookLevel.L1)
    (hbwf : L1SideWF b.bids OrderSide.BUY)
    (hawf : L1SideWF b.asks OrderSide.SELL)
    (hb' : b' = b.update o) :
    (∀ ap, o.side = OrderSide.BUY → b.best_ask_price = some ap → ap ≤ o.price →
      b'.asks.levels = []) ∧
    (∀ bp, o.side = OrderSide.SELL → b.best_bid_price = some bp → o.price ≤ bp →
      b'.bids.levels = []) ∧
    (∀ bp ap, b'.best_bid_price = some bp → b'.best_ask_price = some ap → bp < ap) := by
  have hupd : b' = (L1.crossCheck b o).updateBase (L1.processOrder o) := by
    rw [hb']
    simp [OrderBook.update, hlvl, L1.update]
  clear hb'
  cases ho : o.side with
  | BUY =>
    have hid : (L1.processOrder o).id = OrderId.sideName OrderSide.BUY := by
      simp [L1.processOrder, ho]
    have hside : (L1.processOrder o).side = OrderSide.BUY := by
      simp [L1.processOrder, ho]
    have hpo : (L1.processOrder o).price = o.price := by
      simp [L1.processOrder]
    cases hask : b.asks.levels with
    | nil =>
      have hasknone : b.best_ask_price = none := by
        rw [best_ask_price_eq, hask]
        rfl
      have hcc : L1.crossCheck b o = b := by
        unfold L1.crossCheck
        rw [if_pos ho, hasknone]
      have hb'2 : b' = { b with bids := b.bids.update (L1.processOrder o) } := by
        rw [hupd, hcc]
        simp [OrderBook.updateBase, hside]
      refine ⟨?_, ?_, ?_⟩
      · intro ap _ hap
        rw [hasknone] at hap
        exact absurd hap (by simp)
      · intro bp hsell
        exact absurd hsell (by simp)
      · intro bp ap _ hap
        have hsame : b'.asks = b.asks := by rw [hb'2]
        rw [best_ask_price_eq b', hsame, hask] at hap
        exact absurd hap (by simp)
    | cons a as =>
      have haskp : b.best_ask_price = some a.price := by
        rw [best_ask_price_eq, hask]
        rfl
      by_cases hcross : a.price ≤ o.price
      · have hcc : L1.crossCheck b o = b.clear_asks := by
          unfold L1.crossCheck
          rw [if_pos ho, haskp]
          exact if_pos hcross
        have hb'2 : b' = { b.clear_asks with
            bids := b.clear_asks.bids.update (L1.processOrder o) } := by
          rw [hupd, hcc]
          simp [OrderBook.updateBase, hside]
        have hasks : b'.asks.levels = [] := by
          rw [hb'2]
          simp [OrderBook.clear_asks, Ladder.empty]
        refine ⟨fun _ _ _ _ => hasks, ?_, ?_⟩
        · intro bp hsell
          exact absurd hsell (by simp)
        · intro bp ap _ hap
          rw [best_ask_price_eq b', hasks] at hap
          exact absurd hap (by simp)
      · have hcc : L1.crossCheck b o = b := by
          unfold L1.crossCheck
          rw [if_pos ho, haskp]
          exact if_neg hcross
        have hb'2 : b' = { b with bids := b.bids.update (L1.processOrder o) } := by
          rw [hupd, hcc]
          simp [OrderBook.updateBase, hside]
        have hbids : b'.bids.levels = [⟨(L1.processOrder o).price, [L1.processOrder o]⟩] := by
          rw [hb'2]
          exact l1_ladder_update b.bids OrderSide.BUY (L1.processOrder o) hbwf hid
        refine ⟨?_, ?_, ?_⟩
        · intro ap _ hap hle
          rw [haskp] at hap
          have hap' : a.price = ap := by simpa using hap
          exact absurd (hap' ▸ hle) hcross
        · intro bp hsell
          exact absurd hsell (by simp)
        · intro bp ap hbp hap
          rw [best_bid_price_eq b', hbids] at hbp
          have hbp' : (L1.processOrder o).price = bp := by simpa using hbp
          have hsame : b'.asks = b.asks := by rw [hb'2]
          rw [best_ask_price_eq b', hsame, hask] at hap
          have hap' : a.price = ap := by simpa using hap
          rw [← hbp', ← hap', hpo]
          exact lt_of_not_le hcross
  | SELL =>
    have hid : (L1.processOrder o).id = OrderId.sideName OrderSide.SELL := by
      simp [L1.processOrder, ho]
    have hside : (L1.processOrder o).side = OrderSide.SELL := by
      simp [L1.processOrder, ho]
    have hpo : (L1.processOrder o).price = o.price := by
      simp [L1.processOrder]
    have hnotbuy : ¬(o.side = OrderSide.BUY) := by
      rw [ho]
      simp
    cases hbid : b.bids.levels with
    | nil =>
      have hbidnone : b.best_bid_price = none := by
        rw [best_bid_price_eq, hbid]
        rfl
      have hcc : L1.crossCheck b o = b := by
        unfold L1.crossCheck
        rw [if_neg hnotbuy, hbidnone]
      have hb'2 : b' = { b with asks := b.asks.update (L1.processOrder o) } := by
        rw [hupd, hcc]
        simp [OrderBook.updateBase, hside]
      refine ⟨?_, ?_, ?_⟩
      · intro ap hbuy
        exact absurd hbuy (by simp)
      · intro bp _ hbp
        rw [hbidnone] at hbp
        exact absurd hbp (by simp)
      · intro bp ap hbp _
        have hsame : b'.bids = b.bids := by rw [hb'2]
        rw [best_bid_price_eq b', hsame, hbid] at hbp
        exact absurd hbp (by simp)
    | cons a as =>
      have hbidp : b.best_bid_price = some a.price := by
        rw [best_bid_price_eq, hbid]
        rfl
      by_cases hcross : o.price ≤ a.price
      · have hcc : L1.crossCheck b o = b.clear_bids := by
          unfold L1.crossCheck
          rw [if_neg hnotbuy, hbidp]
          exact if_pos hcross
        have hb'2 : b' = { b.clear_bids with
            asks := b.clear_bids.asks.update (L1.processOrder o) } := by
          rw [hupd, hcc]
          simp [OrderBook.updateBase, hside]
        have hbids2 : b'.bids.levels = [] := by
          rw [hb'2]
          simp [OrderBook.clear_bids, Ladder.empty]
        refine ⟨?_, fun _ _ _ _ => hbids2, ?_⟩
        · intro ap hbuy
          exact absurd hbuy (by simp)
        · intro bp ap hbp _
          rw [best_bid_price_eq b', hbids2] at hbp
          exact absurd hbp (by simp)
      · have hcc : L1.crossCheck b o = b := by
          unfold L1.crossCheck
          rw [if_neg hnotbuy, hbidp]
          exact if_neg hcross
        have hb'2 : b' = { b with asks := b.asks.update (L1.processOrder o) } := by
          rw [hupd, hcc]
          simp [OrderBook.updateBase, hside]
        have hasks : b'.asks.levels = [⟨(L1.processOrder o).price, [L1.processOrder o]⟩] := by
          rw [hb'2]
          exact l1_ladder_update b.asks OrderSide.SELL (L1.processOrder o) hawf hid
        refine ⟨?_, ?_, ?_⟩
        · intro ap hbuy
          exact absurd hbuy (by simp)
        · intro bp _ hbp hle
          rw [hbidp] at hbp
          have hbp' : a.price = bp := by simpa using hbp
          exact absurd (hbp' ▸ hle) hcross
        · intro bp ap hbp hap
          rw [best_ask_price_eq b', hasks] at hap
          have hap' : (L1.processOrder o).price = ap := by simpa using hap
          have hsame : b'.bids = b.bids := by rw [hb'2]
          rw [best_bid_price_eq b', hsame, hbid] at hbp
          have hbp' : a.price = bp := by simpa using hbp
          rw [← hbp', ← hap', hpo]
          exact lt_of_not_le hcross

/-- A well-formed one-level-per-side L1 book used to witness C5. -/
def c5Book : OrderBook :=
  { level := OrderBookLevel.L1
    price_precision := 0
    size_precision := 0
    bids := ⟨true, 0, 0, [⟨100, [⟨OrderId.sideName OrderSide.BUY, 100, 10, OrderSide.BUY⟩]⟩]⟩
    asks := ⟨false, 0, 0, [⟨101, [⟨OrderId.sideName OrderSide.SELL, 101, 10, OrderSide.SELL⟩]⟩]⟩
    last_update_timestamp_ns := 0 }

/-- The crossing BUY update used to witness C5. -/
def c5Order : Order := Order.mk' 101 4 OrderSide.BUY

/-- The book after the witness update. -/
def c5BookAfter : OrderBook := c5Book.update c5Order

/-- Witness for C5: a BUY update at the best ask price clears the ask side,
so the theorem's clearing clause applies with `ap = 101`. -/
theorem C5_witness :
    c5Book.level = OrderBookLevel.L1 ∧
    c5BookAfter = c5Book.update c5Order ∧
    c5BookAfter.asks.levels = [] :=
  ⟨rfl, rfl,
    (C5_l1_update_not_crossed c5Book c5BookAfter c5Order rfl
      (by decide) (by decide) rfl).1 101 rfl (by decide) (by decide)⟩

/-- The L2 structural invariant on one side (spec I3): every level holds
exactly one order, whose id is the level's price formatted to the book's
precision and whose price is the level's price. -/
def L2SideWF (pp : Nat) (ld : Ladder) : Prop :=
  ∀ l ∈ ld.levels, l.orders.length = 1 ∧
    ∀ o ∈ l.orders, o.id = OrderId.fmtPrice l.price pp ∧ o.price = l.price

instance (pp : Nat) (ld : Ladder) : Decidable (L2SideWF pp ld) := by
  unfold L2SideWF
  infer_instance

theorem hasId_false_of_ids {l : Level} {pp : Nat} {p : ℚ}
    (hids : ∀ o ∈ l.orders, o.id = OrderId.fmtPrice l.price pp)
    (hne : l.price ≠ p) : l.hasId (OrderId.fmtPrice p pp) = false := by
  cases hb : l.hasId (OrderId.fmtPrice p pp) with
  | false => rfl
  | true =>
    rw [Level.hasId, List.any_eq_true] at hb
    obtain ⟨o, ho, hid⟩ := hb
    have hid' : o.id = OrderId.fmtPrice p pp := of_decide_eq_true hid
    rw [hids o ho] at hid'
    injection hid' with hp _
    exact absurd hp hne

theorem insert_filter_not_mem {o : Order} :
    ∀ (L : List Level) (r : Bool), (∀ l ∈ L, l.price ≠ o.price) →
      (Ladder.insertOrder r o L).filter (fun l => decide (l.price = o.price)) =
        [⟨o.price, [o]⟩] := by
  intro L
  induction L with
  | nil =>
    intro r _
    simp [Ladder.insertOrder]
  | cons l ls ih =>
    intro r hne
    have hlp : ¬(o.price = l.price) := fun h => hne l (by simp) h.symm
    rw [Ladder.insertOrder, if_neg hlp]
    by_cases hins : (if r then l.price < o.price else o.price < l.price)
    · rw [if_pos hins]
      have hfl : ∀ x ∈ l :: ls, ¬(decide (x.price = o.price) = true) := by
        intro x hx
        simp only [decide_eq_true_eq]
        exact hne x hx
      rw [List.filter_cons_of_pos (by simp), List.filter_eq_nil_iff.mpr hfl]
    · rw [if_neg hins]
      rw [List.filter_cons_of_neg (by simp only [decide_eq_true_eq]; exact hne l (by simp))]
      exact ih r (fun x hx => hne x (by simp [hx]))

theorem remove_insert_cancel {fid : OrderId} {o : Order} (hoid : o.id = fid) :
    ∀ (L : List Level) (r : Bool),
      (∀ l ∈ L, l.hasId fid = false) → (∀ l ∈ L, l.price ≠ o.price) →
      removeFirstById fid (Ladder.insertOrder r o L) = L := by
  intro L
  induction L with
  | nil =>
    intro r _ _
    simp [Ladder.insertOrder, removeFirstById, Level.hasId, eraseFirstId, hoid]
  | cons l ls ih =>
    intro r hno hne
    have hlp : ¬(o.price = l.price) := fun h => hne l (by simp) h.symm
    rw [Ladder.insertOrder, if_neg hlp]
    by_cases hins : (if r then l.price < o.price else o.price < l.price)
    · rw [if_pos hins]
      simp [removeFirstById, Level.hasId, eraseFirstId, hoid]
    · rw [if_neg hins]
      rw [removeFirstById]
      rw [hno l (by simp)]
      simp only [Bool.false_eq_true, if_false]
      rw [ih r (fun x hx => hno x (by simp [hx])) (fun x hx => hne x (by simp [hx]))]

theorem find_none_of_noId {fid : OrderId} :
    ∀ L : List Level, (∀ l ∈ L, l.hasId fid = false) →
      findLevelPriceOfId fid L = none := by
  intro L
  induction L with
  | nil => intro _; rfl
  | cons l ls ih =>
    intro hno
    rw [findLevelPriceOfId, hno l (by simp)]
    simp only [Bool.false_eq_true, if_false]
    exact ih (fun x hx => hno x (by simp [hx]))

theorem mem_prices_insert (r : Bool) (o : Order) :
    ∀ L : List Level, o.price ∈ (Ladder.insertOrder r o L).map (fun l => l.price) := by
  intro L
  induction L with
  | nil => simp [Ladder.insertOrder]
  | cons l ls ih =>
    rw [Ladder.insertOrder]
    by_cases h1 : o.price = l.price
    · rw [if_pos h1]
      simp [h1]
    · rw [if_neg h1]
      by_cases h2 : (if r then l.price < o.price else o.price < l.price)
      · rw [if_pos h2]
        simp
      · rw [if_neg h2]
        simp only [List.map_cons, List.mem_cons]
        exact Or.inr ih

theorem insert_append_merge {o : Order} {l₀ : Level} (hm : o.price = l₀.price) :
    ∀ (L₁ L₂ : List Level), (∀ a ∈ L₁, l₀.price < a.price) →
      Ladder.insertOrder true o (L₁ ++ l₀ :: L₂) =
        L₁ ++ ⟨l₀.price, l₀.orders ++ [o]⟩ :: L₂ := by
  intro L₁
  induction L₁ with
  | nil =>
    intro L₂ _
    simp [Ladder.insertOrder, hm]
  | cons a L₁' ih =>
    intro L₂ hgt
    have ha : l₀.price < a.price := hgt a (by simp)
    have hne : ¬(o.price = a.price) := by
      rw [hm]
      exact ne_of_lt ha
    have hnb : ¬(if True = True then a.price < o.price else o.price < a.price) := by
      simp only [if_pos rfl]
      rw [hm]
      exact not_lt.mpr (le_of_lt ha)
    rw [List.cons_append, Ladder.insertOrder, if_neg hne]
    rw [if_neg (by rw [hm]; simpa using not_lt.mpr (le_of_lt ha))]
    rw [ih L₂ (fun x hx => hgt x (by simp [hx]))]
    rfl

theorem remove_append {fid : OrderId} {lv : Level} {w : Order} {ws : List Order}
    (hlv : lv.hasId fid = true) (her : eraseFirstId fid lv.orders = w :: ws) :
    ∀ (L₁ L₂ : List Level), (∀ a ∈ L₁, a.hasId fid = false) →
      removeFirstById fid (L₁ ++ lv :: L₂) = L₁ ++ ⟨lv.price, w :: ws⟩ :: L₂ := by
  intro L₁
  induction L₁ with
  | nil =>
    intro L₂ _
    rw [List.nil_append, removeFirstById, hlv]
    simp only [if_true, her]
    rfl
  | cons a L₁' ih =>
    intro L₂ hno
    rw [List.cons_append, removeFirstById, hno a (by simp)]
    simp only [Bool.false_eq_true, if_false]
    rw [ih L₂ (fun x hx => hno x (by simp [hx]))]
    rfl

theorem find_append {fid : OrderId} {lv : Level} (hlv : lv.hasId fid = true) :
    ∀ (L₁ L₂ : List Level), (∀ a ∈ L₁, a.hasId fid = false) →
      findLevelPriceOfId fid (L₁ ++ lv :: L₂) = some lv.price := by
  intro L₁
  induction L₁ with
  | nil =>
    intro L₂ _
    rw [List.nil_append, findLevelPriceOfId, hlv]
    simp
  | cons a L₁' ih =>
    intro L₂ hno
    rw [List.cons_append, findLevelPriceOfId, hno a (by simp)]
    simp only [Bool.false_eq_true, if_false]
    exact ih L₂ (fun x hx => hno x (by simp [hx]))

theorem replace_append {fid : OrderId} {o : Order} {lv : Level}
    (hlv : lv.hasId fid = true) :
    ∀ (L₁ L₂ : List Level), (∀ a ∈ L₁, a.hasId fid = false) →
      replaceInLevels fid o (L₁ ++ lv :: L₂) =
        L₁ ++ ⟨lv.price, replaceFirstId fid o lv.orders⟩ :: L₂ := by
  intro L₁
  induction L₁ with
  | nil =>
    intro L₂ _
    rw [List.nil_append, replaceInLevels, hlv]
    simp
  | cons a L₁' ih =>
    intro L₂ hno
    rw [List.cons_append, replaceInLevels, hno a (by simp)]
    simp only [Bool.false_eq_true, if_false]
    rw [ih L₂ (fun x hx => hno x (by simp [hx]))]
    rfl

theorem l2_core (ld : Ladder) (pp : Nat) (p v1 v2 : ℚ)
    (hrev : ld.reverse = true)
    (hone : ∀ l ∈ ld.levels, l.orders.length = 1)
    (hids : ∀ l ∈ ld.levels, ∀ o ∈ l.orders,
      o.id = OrderId.fmtPrice l.price pp ∧ o.price = l.price)
    (hsort : List.Pairwise (fun a c => c.price < a.price) ld.levels) :
    ((((ld.add ⟨OrderId.fmtPrice p pp, p, v1, OrderSide.BUY⟩).delete
        ⟨OrderId.fmtPrice p pp, p, v2, OrderSide.BUY⟩).update
        ⟨OrderId.fmtPrice p pp, p, v2, OrderSide.BUY⟩).levels).filter
      (fun l => decide (l.price = p)) =
      [⟨p, [⟨OrderId.fmtPrice p pp, p, v2, OrderSide.BUY⟩]⟩] := by
  set fid := OrderId.fmtPrice p pp with hfid
  set o1 : Order := ⟨fid, p, v1, OrderSide.BUY⟩ with ho1
  set o2 : Order := ⟨fid, p, v2, OrderSide.BUY⟩ with ho2
  set L := ld.levels with hL
  have hins_levels : (ld.add o1).levels = Ladder.insertOrder true o1 L := by
    rw [Ladder.add, hrev]
  have hins_rev : (ld.add o1).reverse = true := by
    rw [Ladder.add]
    exact hrev
  have hdel_levels : ((ld.add o1).delete o2).levels =
      removeFirstById fid (Ladder.insertOrder true o1 L) := by
    rw [Ladder.delete, hins_levels]
  have hdel_rev : ((ld.add o1).delete o2).reverse = true := by
    rw [Ladder.delete]
    exact hins_rev
  by_cases hmem : p ∈ L.map (fun l => l.price)
  · -- a level at price p already exists: split the sorted levels around it
    obtain ⟨l₀, hl₀mem, hl₀p⟩ := List.mem_map.mp hmem
    obtain ⟨L₁, L₂, hsplit⟩ := List.append_of_mem hl₀mem
    rw [hsplit] at hsort
    have hpair := List.pairwise_append.mp hsort
    have hgt : ∀ a ∈ L₁, l₀.price < a.price := fun a ha =>
      hpair.2.2 a ha l₀ (by simp)
    have hlt : ∀ c ∈ L₂, c.price < l₀.price :=
      (List.pairwise_cons.mp hpair.2.1).1
    obtain ⟨w0, hw0⟩ := List.length_eq_one.mp (hone l₀ hl₀mem)
    have hw0id : w0.id = fid := by
      have := (hids l₀ hl₀mem w0 (by rw [hw0]; simp)).1
      rw [this, hl₀p, hfid]
    have hno₁ : ∀ a ∈ L₁, a.hasId fid = false := by
      intro a ha
      have hane : a.price ≠ p := by
        rw [← hl₀p]
        exact (ne_of_lt (hgt a ha)).symm
      rw [hfid]
      exact hasId_false_of_ids
        (fun o ho => (hids a (by rw [hsplit]; simp [ha]) o ho).1) hane
    have ho1price : o1.price = l₀.price := by
      rw [ho1, hl₀p]
    have ho1id : o1.id = fid := by
      rw [ho1]
    have ho2id : o2.id = fid := by
      rw [ho2]
    have ho2price : o2.price = l₀.price := by
      rw [ho2, hl₀p]
    -- step 1: insertion merges into the existing level at p
    have hstep1 : Ladder.insertOrder true o1 L =
        L₁ ++ ⟨l₀.price, l₀.orders ++ [o1]⟩ :: L₂ := by
      rw [hsplit]
      exact insert_append_merge ho1price L₁ L₂ hgt
    -- step 2: the whole-level removal erases the pre-existing order
    have herase : eraseFirstId fid (l₀.orders ++ [o1]) = [o1] := by
      rw [hw0]
      simp [eraseFirstId, hw0id]
    have hlv_has : (⟨l₀.price, l₀.orders ++ [o1]⟩ : Level).hasId fid = true := by
      rw [Level.hasId, hw0]
      simp [hw0id]
    have hstep2 : removeFirstById fid (Ladder.insertOrder true o1 L) =
        L₁ ++ ⟨l₀.price, [o1]⟩ :: L₂ := by
      rw [hstep1]
      exact remove_append hlv_has herase L₁ L₂ hno₁
    -- step 3: the re-insertion replaces the surviving order in place
    have hcenter_has : (⟨l₀.price, [o1]⟩ : Level).hasId fid = true := by
      rw [Level.hasId]
      simp [ho1id]
    have hfind : findLevelPriceOfId fid ((ld.add o1).delete o2).levels =
        some l₀.price := by
      rw [hdel_levels, hstep2]
      exact find_append hcenter_has L₁ L₂ hno₁
    have hupd : ((ld.add o1).delete o2).update o2 =
        { (ld.add o1).delete o2 with
          levels := replaceInLevels fid o2 ((ld.add o1).delete o2).levels } := by
      unfold Ladder.update
      rw [ho2id, hfind]
      show (if o2.price = l₀.price then
              { (ld.add o1).delete o2 with
                levels := replaceInLevels fid o2 ((ld.add o1).delete o2).levels }
            else (((ld.add o1).delete o2).delete o2).add o2) = _
      rw [if_pos ho2price]
    have hrepl : replaceFirstId fid o2 [o1] = [o2] := by
      simp [replaceFirstId, ho1id]
    have hfinal : (((ld.add o1).delete o2).update o2).levels =
        L₁ ++ ⟨l₀.price, [o2]⟩ :: L₂ := by
      rw [hupd]
      show replaceInLevels fid o2 ((ld.add o1).delete o2).levels = _
      rw [hdel_levels, hstep2, replace_append hcenter_has L₁ L₂ hno₁, hrepl]
    rw [hfinal]
    have hfl1 : ∀ x ∈ L₁, ¬(decide (x.price = p) = true) := by
      intro x hx
      simp only [decide_eq_true_eq]
      rw [← hl₀p]
      exact (ne_of_lt (hgt x hx)).symm
    have hfl2 : ∀ x ∈ L₂, ¬(decide (x.price = p) = true) := by
      intro x hx
      simp only [decide_eq_true_eq]
      rw [← hl₀p]
      exact ne_of_lt (hlt x hx)
    rw [List.filter_append, List.filter_eq_nil_iff.mpr hfl1, List.nil_append]
    rw [List.filter_cons_of_pos (by simp [hl₀p]), List.filter_eq_nil_iff.mpr hfl2]
    rw [hl₀p]
  · -- no level at price p: removal undoes the insertion and the update inserts
    have hne : ∀ l ∈ L, l.price ≠ p := by
      intro l hl hcontra
      exact hmem (List.mem_map.mpr ⟨l, hl, hcontra⟩)
    have ho1id : o1.id = fid := by
      rw [ho1]
    have ho2id : o2.id = fid := by
      rw [ho2]
    have ho1price : o1.price = p := by
      rw [ho1]
    have ho2price : o2.price = p := by
      rw [ho2]
    have hnoid : ∀ l ∈ L, l.hasId fid = false := by
      intro l hl
      rw [hfid]
      exact hasId_false_of_ids (fun o ho => (hids l hl o ho).1) (hne l hl)
    have hstep2 : removeFirstById fid (Ladder.insertOrder true o1 L) = L :=
      remove_insert_cancel ho1id L true hnoid
        (fun l hl => by rw [ho1price]; exact hne l hl)
    have hfind : findLevelPriceOfId fid ((ld.add o1).delete o2).levels = none := by
      rw [hdel_levels, hstep2]
      exact find_none_of_noId L hnoid
    have hupd : ((ld.add o1).delete o2).update o2 = ((ld.add o1).delete o2).add o2 := by
      unfold Ladder.update
      rw [ho2id, hfind]
    have hfinal : (((ld.add o1).delete o2).update o2).levels =
        Ladder.insertOrder true o2 L := by
      rw [hupd, Ladder.add, hdel_rev, hdel_levels, hstep2]
    rw [hfinal]
    have hres := insert_filter_not_mem (o := o2) L true
      (fun l hl => by rw [ho2price]; exact hne l hl)
    rw [ho2price] at hres
    exact hres

theorem add_dispatch_L2 {b : OrderBook} (h : b.level = OrderBookLevel.L2) (o : Order) :
    b.add o = Except.ok (L2.add b o) := by
  unfold OrderBook.add
  rw [h]

theorem update_dispatch_L2 {b : OrderBook} (h : b.level = OrderBookLevel.L2) (o : Order) :
    b.update o = L2.update b o := by
  unfold OrderBook.update
  rw [h]

/-- C4: on any well-formed L2 order book, an `add` of a BUY order at price `p`
with volume `v1` followed by an `update` with a BUY order at `p` with volume
`v2` leaves the bid side with exactly one level at `p`, holding exactly one
order whose volume is `v2` — the update removes the existing order at the
target price before reinserting — and whose id is the price formatted to the
book's price precision. -/
theorem C4_l2_update_is_replace (b b1 b2 : OrderBook) (p v1 v2 : ℚ)
    (hlvl : b.level = OrderBookLevel.L2)
    (hrev : b.bids.reverse = true)
    (hwf : L2SideWF b.price_precision b.bids)
    (hsort : List.Pairwise (fun a c => c.price < a.price) b.bids.levels)
    (h1 : b.add (Order.mk' p v1 OrderSide.BUY) = Except.ok b1)
    (h2 : b2 = b1.update (Order.mk' p v2 OrderSide.BUY)) :
    b2.bids.levels.filter (fun l => decide (l.price = p)) =
      [⟨p, [⟨OrderId.fmtPrice p b.price_precision, p, v2, OrderSide.BUY⟩]⟩] := by
  rw [add_dispatch_L2 hlvl] at h1
  simp only [Except.ok.injEq] at h1
  subst h1
  rw [update_dispatch_L2
    (show (L2.add b (Order.mk' p v1 OrderSide.BUY)).level = OrderBookLevel.L2 from hlvl)] at h2
  subst h2
  have hmem : (L2.processOrder
      (L2.add b (Order.mk' p v1 OrderSide.BUY)).price_precision
      (Order.mk' p v2 OrderSide.BUY)).price ∈
      (L2.add b (Order.mk' p v1 OrderSide.BUY)).bids.prices := by
    show (p : ℚ) ∈
      (b.bids.add ⟨OrderId.fmtPrice p b.price_precision, p, v1, OrderSide.BUY⟩).prices
    rw [Ladder.prices, Ladder.add, hrev]
    exact mem_prices_insert true
      ⟨OrderId.fmtPrice p b.price_precision, p, v1, OrderSide.BUY⟩ b.bids.levels
  have hcore : L2.update (L2.add b (Order.mk' p v1 OrderSide.BUY))
      (Order.mk' p v2 OrderSide.BUY) =
      { b with bids :=
          (Ladder.update
            (Ladder.delete
              (Ladder.add b.bids ⟨OrderId.fmtPrice p b.price_precision, p, v1, OrderSide.BUY⟩)
              ⟨OrderId.fmtPrice p b.price_precision, p, v2, OrderSide.BUY⟩)
            ⟨OrderId.fmtPrice p b.price_precision, p, v2, OrderSide.BUY⟩) } := by
    unfold L2.update
    show (L2.removeIfExists (L2.add b (Order.mk' p v1 OrderSide.BUY))
        (L2.processOrder
          (L2.add b (Order.mk' p v1 OrderSide.BUY)).price_precision
          (Order.mk' p v2 OrderSide.BUY))).updateBase
        (L2.processOrder
          (L2.add b (Order.mk' p v1 OrderSide.BUY)).price_precision
          (Order.mk' p v2 OrderSide.BUY)) = _
    unfold L2.removeIfExists
    rw [if_pos ⟨rfl, hmem⟩]
    rfl
  rw [hcore]
  exact l2_core b.bids b.price_precision p v1 v2 hrev
    (fun l hl => (hwf l hl).1) (fun l hl => (hwf l hl).2) hsort

/-- A fresh L2 book (price precision 2) used to witness C4. -/
def c4Book : OrderBook := OrderBook.mkBook OrderBookLevel.L2 2 0

/-- The witness book after `add` of (100, 5, BUY). -/
def c4Book1 : OrderBook :=
  match c4Book.add (Order.mk' 100 5 OrderSide.BUY) with
  | Except.ok x => x
  | Except.error _ => c4Book

/-- The witness book after the subsequent `update` with (100, 7, BUY). -/
def c4Book2 : OrderBook := c4Book1.update (Order.mk' 100 7 OrderSide.BUY)

/-- Witness for C4: the seed scenario ADD (100, 5, BUY); UPDATE (100, 7, BUY)
on a fresh L2 book ends with a single bid level at 100 of volume 7. -/
theorem C4_witness :
    c4Book.level = OrderBookLevel.L2 ∧
    c4Book.add (Order.mk' 100 5 OrderSide.BUY) = Except.ok c4Book1 ∧
    c4Book2.bids.levels.filter (fun l => decide (l.price = 100)) =
      [⟨100, [⟨OrderId.fmtPrice 100 c4Book.price_precision, 100, 7, OrderSide.BUY⟩]⟩] :=
  ⟨rfl, by decide,
    C4_l2_update_is_replace c4Book c4Book1 c4Book2 100 5 7 rfl rfl
      (by decide) (by decide) (by decide) rfl⟩

end Nautilus
